import Mathlib

/-!
Verification development for the gnt2influx ingestion pipeline.

The Rust sources are shallowly embedded: pure string and record
manipulation is translated to executable Lean functions, machine floats
are represented as exact rationals produced by a decimal parser, calendar
arithmetic follows the civil-calendar algorithms, and effectful
operations (network writes, the ambient clock) are passed in explicitly
as parameters.
-/

set_option maxRecDepth 100000
set_option synthInstance.maxSize 1024

instance {ε α : Type} [DecidableEq ε] [DecidableEq α] : DecidableEq (Except ε α) := by
  intro a b
  cases a <;> cases b
  case ok.ok x y => exact if h : x = y then .isTrue (by rw [h]) else .isFalse (by simp [h])
  case error.error x y =>
    exact if h : x = y then .isTrue (by rw [h]) else .isFalse (by simp [h])
  all_goals exact .isFalse (by simp)

/-- True exactly on the success constructor of Except. -/
def exIsOk {ε α : Type} : Except ε α → Bool
  | .ok _ => true
  | .error _ => false

/-- Digits (most significant first) to a natural number. -/
def digitsToNat (ds : List Char) : Nat :=
  ds.foldl (fun a c => a * 10 + (c.toNat - 48)) 0

/-- Fuel-driven decimal rendering loop; fuel is any bound at least the digit count. -/
def natToStrGo : Nat → Nat → List Char → List Char
  | 0, _, acc => acc
  | fuel + 1, n, acc =>
    if n = 0 then acc else natToStrGo fuel (n / 10) (Char.ofNat (48 + n % 10) :: acc)

/-- Decimal rendering of a natural number, models the Display formatting of line numbers. -/
def natToStr (n : Nat) : String :=
  if n = 0 then "0" else String.mk (natToStrGo (n + 1) n [])

/-- Replacement loop over character lists; fuel is an upper bound on the input length.
Models the left-to-right non-overlapping semantics of Rust str replace. -/
def replaceGo (pat rep : List Char) : Nat → List Char → List Char
  | _, [] => []
  | 0, cs => cs
  | fuel + 1, c :: cs =>
    if pat.isPrefixOf (c :: cs) then
      rep ++ replaceGo pat rep fuel ((c :: cs).drop pat.length)
    else
      c :: replaceGo pat rep fuel cs

/-- Models Rust str::replace (all occurrences, left to right, non-overlapping).
The patterns used by the sources are never empty; an empty pattern is mapped to
the identity here. -/
def strReplace (s pat rep : String) : String :=
  if pat.data = [] then s else String.mk (replaceGo pat.data rep.data s.data.length s.data)

/-- Models Rust str::to_lowercase on the ASCII header names the parser matches. -/
def strToLower (s : String) : String :=
  String.mk (s.data.map Char.toLower)

/-- Split on a separator character, keeping empty pieces, as Rust str::split does. -/
def splitCharGo (sep : Char) : List Char → List (List Char)
  | [] => [[]]
  | c :: cs =>
    let r := splitCharGo sep cs
    if c = sep then [] :: r
    else
      match r with
      | [] => [[c]]
      | g :: gs => (c :: g) :: gs

/-- Models Rust str::split on a single character. -/
def strSplitChar (sep : Char) (s : String) : List String :=
  (splitCharGo sep s.data).map String.mk

/-- Models Rust str::trim (whitespace stripped from both ends). -/
def strTrim (s : String) : String :=
  String.mk (((s.data.dropWhile Char.isWhitespace).reverse.dropWhile Char.isWhitespace).reverse)

/-- Leading digit run of a character list together with the remainder. -/
def spanDigits (cs : List Char) : List Char × List Char :=
  (cs.takeWhile Char.isDigit, cs.dropWhile Char.isDigit)

/-- Optional leading sign, as accepted by the Rust numeric FromStr parsers. -/
def parseSign : List Char → Int × List Char
  | '+' :: r => (1, r)
  | '-' :: r => (-1, r)
  | cs => (1, cs)

/-- Exact decimal representation of a parsed f64 literal: sign, integer part,
fractional digit count and digits value, exponent sign and value. -/
structure DecRep where
  sign : Int
  intPart : Nat
  fracDigits : Nat
  fracPart : Nat
  expSign : Int
  expVal : Nat
deriving DecidableEq, Repr

/-- Value denoted by an exact decimal representation, as a rational. -/
def DecRep.toRat (d : DecRep) : ℚ :=
  (d.sign : ℚ) * ((d.intPart : ℚ) + (d.fracPart : ℚ) / (10 : ℚ) ^ d.fracDigits) *
    (if d.expSign = 1 then (10 : ℚ) ^ d.expVal else ((10 : ℚ) ^ d.expVal)⁻¹)

/-- Syntactic layer of Rust str::parse to f64 on finite decimal input.  Accepts
an optional sign, a significand of the shapes digits, digits.digits, digits. or
.digits, and an optional decimal exponent; anything else parses to none.  The
non-finite spellings inf and nan are not used by any input this pipeline
handles and are not modelled. -/
def parseF64Repr (s : String) : Option DecRep :=
  let (sign, cs) := parseSign s.data
  let expCont := fun (ip fd fp : Nat) (rest : List Char) =>
    match rest with
    | [] => some (⟨sign, ip, fd, fp, 1, 0⟩ : DecRep)
    | e :: rest1 =>
      if e = 'e' ∨ e = 'E' then
        let (esign, rest2) := parseSign rest1
        let (eds, rest3) := spanDigits rest2
        if eds = [] ∨ rest3 ≠ [] then none
        else some ⟨sign, ip, fd, fp, esign, digitsToNat eds⟩
      else none
  let (intDs, cs1) := spanDigits cs
  match cs1 with
  | '.' :: rest =>
    let (fracDs, cs2) := spanDigits rest
    if intDs = [] ∧ fracDs = [] then none
    else expCont (digitsToNat intDs) fracDs.length (digitsToNat fracDs) cs2
  | _ => if intDs = [] then none else expCont (digitsToNat intDs) 0 0 cs1

/-- Models Rust str::parse to f64, with the parsed value represented exactly as
a rational. -/
def parseF64 (s : String) : Option ℚ := (parseF64Repr s).map DecRep.toRat

/-- Models Rust str::parse to i64: optional sign, decimal digits, 64-bit range check. -/
def parseI64 (s : String) : Option Int :=
  let (sign, ds) := parseSign s.data
  if ds = [] ∨ ¬ (ds.all Char.isDigit) then none
  else
    let n : Int := sign * (digitsToNat ds : Int)
    if -(2 ^ 63) ≤ n ∧ n ≤ 2 ^ 63 - 1 then some n else none

/-- Calendar timestamp with millisecond precision, models chrono NaiveDateTime
interpreted at UTC (the sources attach the UTC offset without shifting). -/
structure NaiveDateTime where
  year : Int
  month : Nat
  day : Nat
  hour : Nat
  minute : Nat
  second : Nat
  millis : Nat
deriving DecidableEq, Repr

/-- Proleptic Gregorian leap-year rule. -/
def isLeapYear (y : Int) : Bool :=
  (y % 4 = 0 && y % 100 ≠ 0) || y % 400 = 0

/-- Length of a month in the proleptic Gregorian calendar. -/
def daysInMonth (y : Int) (m : Nat) : Nat :=
  if m = 2 then (if isLeapYear y then 29 else 28)
  else if m = 4 ∨ m = 6 ∨ m = 9 ∨ m = 11 then 30
  else 31

/-- Field ranges chrono enforces when assembling a parsed date-time. -/
def validDateTime (dt : NaiveDateTime) : Bool :=
  decide (1 ≤ dt.month) && decide (dt.month ≤ 12) && decide (1 ≤ dt.day) &&
    decide (dt.day ≤ daysInMonth dt.year dt.month) && decide (dt.hour < 24) &&
    decide (dt.minute < 60) && decide (dt.second < 60) && decide (dt.millis < 1000)

/-- One token of a chrono strftime format string, restricted to the specifiers the
sources use. -/
inductive FmtItem where
  | lit : Char → FmtItem
  | year : FmtItem
  | month : FmtItem
  | day : FmtItem
  | hour : FmtItem
  | minute : FmtItem
  | second : FmtItem
  | milli3 : FmtItem
deriving DecidableEq, Repr

/-- Compiles a chrono format string to its token list (specifiers used by the
sources: %Y %m %d %H %M %S %.3f; every other character is a literal). -/
def compileFmt : List Char → List FmtItem
  | [] => []
  | '%' :: 'Y' :: r => .year :: compileFmt r
  | '%' :: 'm' :: r => .month :: compileFmt r
  | '%' :: 'd' :: r => .day :: compileFmt r
  | '%' :: 'H' :: r => .hour :: compileFmt r
  | '%' :: 'M' :: r => .minute :: compileFmt r
  | '%' :: 'S' :: r => .second :: compileFmt r
  | '%' :: '.' :: '3' :: 'f' :: r => .milli3 :: compileFmt r
  | c :: r => .lit c :: compileFmt r

/-- Partially assembled date-time fields while a format is being matched. -/
structure FmtAcc where
  y : Option Nat
  mo : Option Nat
  d : Option Nat
  h : Option Nat
  mi : Option Nat
  s : Option Nat
  ms : Nat
deriving DecidableEq, Repr

/-- Greedy numeric scan of at most maxW digits (at least one). -/
def takeNum (maxW : Nat) (cs : List Char) : Option (Nat × List Char) :=
  let ds := (cs.takeWhile Char.isDigit).take maxW
  if ds = [] then none else some (digitsToNat ds, cs.drop ds.length)

/-- Matches a token list against input characters, chrono-style: numeric specifiers
scan greedily (year up to four digits, the rest up to two), a literal space matches
any run of whitespace, %.3f optionally matches a dot followed by exactly three
digits, and any other literal matches itself. -/
def runItems : List FmtItem → FmtAcc → List Char → Option (FmtAcc × List Char)
  | [], acc, cs => some (acc, cs)
  | .lit c :: items, acc, cs =>
    if c = ' ' then runItems items acc (cs.dropWhile Char.isWhitespace)
    else
      match cs with
      | [] => none
      | c2 :: cs2 => if c2 = c then runItems items acc cs2 else none
  | .year :: items, acc, cs =>
    match takeNum 4 cs with
    | none => none
    | some (n, cs2) => runItems items { acc with y := some n } cs2
  | .month :: items, acc, cs =>
    match takeNum 2 cs with
    | none => none
    | some (n, cs2) => runItems items { acc with mo := some n } cs2
  | .day :: items, acc, cs =>
    match takeNum 2 cs with
    | none => none
    | some (n, cs2) => runItems items { acc with d := some n } cs2
  | .hour :: items, acc, cs =>
    match takeNum 2 cs with
    | none => none
    | some (n, cs2) => runItems items { acc with h := some n } cs2
  | .minute :: items, acc, cs =>
    match takeNum 2 cs with
    | none => none
    | some (n, cs2) => runItems items { acc with mi := some n } cs2
  | .second :: items, acc, cs =>
    match takeNum 2 cs with
    | none => none
    | some (n, cs2) => runItems items { acc with s := some n } cs2
  | .milli3 :: items, acc, cs =>
    match cs with
    | '.' :: cs2 =>
      let ds := (cs2.takeWhile Char.isDigit).take 3
      if ds.length = 3 then runItems items { acc with ms := digitsToNat ds } (cs2.drop 3)
      else none
    | _ => runItems items acc cs

/-- Models chrono NaiveDateTime::parse_from_str for one format string: the whole
input must be consumed, every date and time field must have been provided, and the
assembled fields must form a valid calendar date-time. -/
def parseFromStr (s fmtStr : String) : Option NaiveDateTime :=
  match runItems (compileFmt fmtStr.data) ⟨none, none, none, none, none, none, 0⟩ s.data with
  | some (acc, []) =>
    match acc.y, acc.mo, acc.d, acc.h, acc.mi, acc.s with
    | some y, some mo, some d, some h, some mi, some s2 =>
      let dt : NaiveDateTime := ⟨(y : Int), mo, d, h, mi, s2, acc.ms⟩
      if validDateTime dt then some dt else none
    | _, _, _, _, _, _ => none
  | _ => none

/-- First format in the list that parses the value wins, as the for-loops with an
early return in parse_timestamp and parse_kml_timestamp do. -/
def tryFormats (value : String) : List String → Option NaiveDateTime
  | [] => none
  | f :: fs =>
    match parseFromStr value f with
    | some dt => some dt
    | none => tryFormats value fs

/-- Civil-calendar date of a day count relative to 1970-01-01 (Gregorian). -/
def civilFromDays (z0 : Int) : Int × Nat × Nat :=
  let z := z0 + 719468
  let era := Int.fdiv z 146097
  let doe := (z - era * 146097).toNat
  let yoe := (doe - doe / 1460 + doe / 36524 - doe / 146096) / 365
  let y := (yoe : Int) + era * 400
  let doy := doe - (365 * yoe + yoe / 4 - yoe / 100)
  let mp := (5 * doy + 2) / 153
  let d := doy - (153 * mp + 2) / 5 + 1
  let m := if mp < 10 then mp + 3 else mp - 9
  (if m ≤ 2 then y + 1 else y, m, d)

/-- Models chrono DateTime::from_timestamp at second precision: splits the epoch
second count into a civil date and a time of day, and returns none outside the
year range chrono can represent (roughly plus or minus 262000 years). -/
def fromTimestamp (n : Int) : Option NaiveDateTime :=
  let days := Int.fdiv n 86400
  let sod := (n - days * 86400).toNat
  let (y, m, d) := civilFromDays days
  if -262143 ≤ y ∧ y ≤ 262142 then some ⟨y, m, d, sod / 3600, sod % 3600 / 60, sod % 60, 0⟩
  else none

/-- Day count relative to 1970-01-01 of a civil date (Gregorian). -/
def daysFromCivil (y0 : Int) (m d : Nat) : Int :=
  let y := if m ≤ 2 then y0 - 1 else y0
  let era := Int.fdiv y 400
  let yoe := (y - era * 400).toNat
  let doy := (153 * (if m > 2 then m - 3 else m + 9) + 2) / 5 + d - 1
  let doe := yoe * 365 + yoe / 4 - yoe / 100 + doy
  era * 146097 + (doe : Int) - 719468

/-- Nanosecond epoch timestamp of a date-time, as chrono timestamp_nanos_opt
computes it for in-range values. -/
def timestampNanos (dt : NaiveDateTime) : Int :=
  let secs := daysFromCivil dt.year dt.month dt.day * 86400 +
    (dt.hour : Int) * 3600 + (dt.minute : Int) * 60 + (dt.second : Int)
  secs * 1000000000 + (dt.millis : Int) * 1000000

/-- Models timestamp_nanos_opt().unwrap_or(0): zero when the nanosecond count
overflows the signed 64-bit range. -/
def timestampNanosOrZero (dt : NaiveDateTime) : Int :=
  let n := timestampNanos dt
  if -(2 ^ 63) ≤ n ∧ n ≤ 2 ^ 63 - 1 then n else 0

/-- An arbitrary fixed instant standing in for the ambient clock in concrete
evaluations. -/
def epochDT : NaiveDateTime := ⟨1970, 1, 1, 0, 0, 0, 0⟩

/-- Canonical record produced by both parsers and consumed by the writer, from
parser.rs.  Numeric f64 fields are carried as exact rationals. -/
structure GNetTrackRecord where
  timestamp : NaiveDateTime
  longitude : Option ℚ
  latitude : Option ℚ
  speed : Option ℚ
  operator_name : Option String
  operator_code : Option String
  cgi : Option String
  cellname : Option String
  node : Option String
  cell_id : Option String
  lac : Option String
  network_tech : Option String
  network_mode : Option String
  level : Option ℚ
  qual : Option ℚ
  snr : Option ℚ
  cqi : Option ℚ
  arfcn : Option String
  dl_bitrate : Option ℚ
  ul_bitrate : Option ℚ
deriving DecidableEq, Repr

/-- Record state at the top of from_csv_record: timestamp initialised to the
current time, every other field absent. -/
def initRecord (now : NaiveDateTime) : GNetTrackRecord :=
  ⟨now, none, none, none, none, none, none, none, none, none, none, none, none,
    none, none, none, none, none, none, none⟩

/-- Format strings tried in order by parse_timestamp in parser.rs. -/
def timestampFormats : List String :=
  ["%Y-%m-%d %H:%M:%S", "%Y/%m/%d %H:%M:%S", "%d.%m.%Y %H:%M:%S",
    "%Y-%m-%d %H:%M:%S%.3f", "%Y-%m-%dT%H:%M:%S", "%Y-%m-%dT%H:%M:%SZ",
    "%Y-%m-%dT%H:%M:%S%.3fZ"]

/-- Models parse_timestamp in parser.rs: empty input yields the current time,
otherwise the format list is tried in order, then a Unix epoch-second integer,
and only when everything fails is an error produced. -/
def parse_timestamp (now : NaiveDateTime) (value : String) : Except String NaiveDateTime :=
  if value = "" then .ok now
  else
    match tryFormats value timestampFormats with
    | some dt => .ok dt
    | none =>
      match parseI64 value with
      | some ts =>
        match fromTimestamp ts with
        | some dt => .ok dt
        | none => .error ("Unable to parse timestamp: " ++ value)
      | none => .error ("Unable to parse timestamp: " ++ value)

/-- Models parse_float_optional in parser.rs. -/
def parse_float_optional (value : String) : Option ℚ :=
  if value = "" ∨ value = "N/A" ∨ value = "null" then none else parseF64 value

/-- One arm of the header match inside from_csv_record: routes a single cell into
the record according to the lowercased header name.  Only the timestamp arm can
fail; unknown columns are ignored. -/
def applyCell (now : NaiveDateTime) (header value : String) (r : GNetTrackRecord) :
    Except String GNetTrackRecord :=
  let h := strToLower header
  if h = "timestamp" ∨ h = "time" then
    match parse_timestamp now value with
    | .ok ts => .ok { r with timestamp := ts }
    | .error e => .error e
  else if h = "longitude" ∨ h = "lon" then .ok { r with longitude := parse_float_optional value }
  else if h = "latitude" ∨ h = "lat" then .ok { r with latitude := parse_float_optional value }
  else if h = "speed" then .ok { r with speed := parse_float_optional value }
  else if h = "operator" ∨ h = "operator_name" then .ok { r with operator_name := some value }
  else if h = "mcc-mnc" ∨ h = "operator_code" then .ok { r with operator_code := some value }
  else if h = "cgi" then .ok { r with cgi := some value }
  else if h = "cellname" then .ok { r with cellname := some value }
  else if h = "node" ∨ h = "rnc" ∨ h = "enodeb" then .ok { r with node := some value }
  else if h = "cellid" ∨ h = "cell_id" then .ok { r with cell_id := some value }
  else if h = "lac" then .ok { r with lac := some value }
  else if h = "networktech" ∨ h = "network_tech" ∨ h = "tech" then
    .ok { r with network_tech := some value }
  else if h = "networkmode" ∨ h = "network_mode" ∨ h = "mode" then
    .ok { r with network_mode := some value }
  else if h = "level" ∨ h = "rsrp" ∨ h = "rscp" ∨ h = "rxlevel" then
    .ok { r with level := parse_float_optional value }
  else if h = "qual" ∨ h = "rsrq" ∨ h = "ecno" ∨ h = "rxqual" then
    .ok { r with qual := parse_float_optional value }
  else if h = "snr" then .ok { r with snr := parse_float_optional value }
  else if h = "cqi" then .ok { r with cqi := parse_float_optional value }
  else if h = "arfcn" then .ok { r with arfcn := some value }
  else if h = "dl_bitrate" ∨ h = "downlink_bitrate" then
    .ok { r with dl_bitrate := parse_float_optional value }
  else if h = "ul_bitrate" ∨ h = "uplink_bitrate" then
    .ok { r with ul_bitrate := parse_float_optional value }
  else .ok r

/-- Enumerated loop body of from_csv_record: cell i is routed through the header
at index i when one exists, and a timestamp failure aborts the row at once. -/
def applyCells (now : NaiveDateTime) (headers : List String) :
    Nat → List String → GNetTrackRecord → Except String GNetTrackRecord
  | _, [], r => .ok r
  | i, v :: vs, r =>
    match headers.get? i with
    | none => applyCells now headers (i + 1) vs r
    | some h =>
      match applyCell now h v r with
      | .ok r2 => applyCells now headers (i + 1) vs r2
      | .error e => .error e

/-- Models GNetTrackRecord::from_csv_record in parser.rs, with the ambient clock
passed in for the initial timestamp. -/
def from_csv_record (now : NaiveDateTime) (record headers : List String) :
    Except String GNetTrackRecord :=
  applyCells now headers 0 record (initRecord now)

/-- Loop of LogParser::parse_file over tokenization outcomes, carrying the
0-based data-row index, the running error count and the accumulated records.
Reported line numbers are the row index plus two, the header being line one. -/
def parseRowsGo (skipInvalid : Bool) (now : NaiveDateTime) (headers : List String) :
    Nat → List (Except String (List String)) → Nat → List GNetTrackRecord →
      Except String (List GNetTrackRecord × Nat)
  | _, [], errCount, acc => .ok (acc.reverse, errCount)
  | lineNum, .ok row :: rest, errCount, acc =>
    match from_csv_record now row headers with
    | .ok rec => parseRowsGo skipInvalid now headers (lineNum + 1) rest errCount (rec :: acc)
    | .error e =>
      if skipInvalid then parseRowsGo skipInvalid now headers (lineNum + 1) rest (errCount + 1) acc
      else .error ("Error parsing record at line " ++ natToStr (lineNum + 2) ++ ": " ++ e)
  | lineNum, .error e :: rest, errCount, acc =>
    if skipInvalid then parseRowsGo skipInvalid now headers (lineNum + 1) rest (errCount + 1) acc
    else .error ("Error reading line " ++ natToStr (lineNum + 2) ++ ": " ++ e)

/-- Models LogParser::parse_file in parser.rs at the level of already-tokenized
row outcomes (file access and delimiter sniffing abstracted away): each entry of
rows is either a tokenized data row or a reader error for that line.  Returns
the parsed records in order together with the error count the source logs. -/
def parse_file_rows (skipInvalid : Bool) (now : NaiveDateTime) (headers : List String)
    (rows : List (Except String (List String))) : Except String (List GNetTrackRecord × Nat) :=
  parseRowsGo skipInvalid now headers 0 rows 0 []

/-- Accumulated per-placemark state of the KML parser, from kml_parser.rs. -/
structure PlacemarkData where
  technology : Option String
  rsrp : Option String
  speed : Option String
  altitude : Option String
  time : Option String
  coordinates : Option String
deriving DecidableEq, Repr

/-- Models PlacemarkData::new. -/
def PlacemarkData.new : PlacemarkData := ⟨none, none, none, none, none, none⟩

/-- Models PlacemarkData::add_data: routes a Data element value by its literal
name attribute; unknown names are dropped. -/
def PlacemarkData.addData (pd : PlacemarkData) (name value : String) : PlacemarkData :=
  match name with
  | "技術" => { pd with technology := some value }
  | "RSRP" => { pd with rsrp := some value }
  | "速度" => { pd with speed := some value }
  | "高度" => { pd with altitude := some value }
  | "時間" => { pd with time := some value }
  | _ => pd

/-- Models PlacemarkData::set_coordinates. -/
def PlacemarkData.setCoordinates (pd : PlacemarkData) (coords : String) : PlacemarkData :=
  { pd with coordinates := some coords }

/-- Format strings tried in order by parse_kml_timestamp in kml_parser.rs. -/
def kmlTimestampFormats : List String :=
  ["%Y.%m.%d %H.%M.%S", "%Y.%m.%d_%H.%M.%S", "%Y-%m-%d %H:%M:%S", "%Y/%m/%d %H:%M:%S"]

/-- Models parse_kml_timestamp in kml_parser.rs: underscores are replaced by
spaces, then the four formats are tried in order; no match is an error. -/
def parse_kml_timestamp (timeStr : String) : Except String NaiveDateTime :=
  let cleaned := strReplace timeStr "_" " "
  match tryFormats cleaned kmlTimestampFormats with
  | some dt => .ok dt
  | none => .error ("Unable to parse KML timestamp: " ++ timeStr)

/-- Models PlacemarkData::to_record in kml_parser.rs.  The source also computes a
parsed altitude value from the accumulated altitude field (suffix m stripped) but
never attaches it to the record; that dead computation has no observable effect
and is not repeated here. -/
def PlacemarkData.toRecord (now : NaiveDateTime) (pd : PlacemarkData) :
    Except String GNetTrackRecord :=
  let lonLat : Option ℚ × Option ℚ :=
    match pd.coordinates with
    | some coords =>
      match strSplitChar ',' (strTrim coords) with
      | p0 :: p1 :: _ => (parseF64 p0, parseF64 p1)
      | _ => (none, none)
    | none => (none, none)
  let tsRes : Except String NaiveDateTime :=
    match pd.time with
    | some t => parse_kml_timestamp t
    | none => .ok now
  match tsRes with
  | .error e => .error e
  | .ok ts =>
    let speed :=
      match pd.speed with
      | some s => parseF64 (strTrim (strReplace (strReplace s " km/h" "") "km/h" ""))
      | none => none
    let level :=
      match pd.rsrp with
      | some s => parseF64 (strTrim (strReplace (strReplace s " dBm" "") "dBm" ""))
      | none => none
    .ok { timestamp := ts, longitude := lonLat.1, latitude := lonLat.2, speed := speed,
          operator_name := some "KDDI", operator_code := none, cgi := none, cellname := none,
          node := none, cell_id := none, lac := none, network_tech := pd.technology,
          network_mode := none, level := level, qual := none, snr := none, cqi := none,
          arfcn := none, dl_bitrate := none, ul_bitrate := none }

/-- Loop of KmlParser::parse_file over completed placemarks, carrying the running
error count and the accumulated records. -/
def parsePlacemarksGo (skipInvalid : Bool) (now : NaiveDateTime) :
    List PlacemarkData → Nat → List GNetTrackRecord → Except String (List GNetTrackRecord × Nat)
  | [], errCount, acc => .ok (acc.reverse, errCount)
  | pd :: rest, errCount, acc =>
    match pd.toRecord now with
    | .ok rec => parsePlacemarksGo skipInvalid now rest errCount (rec :: acc)
    | .error e =>
      if skipInvalid then parsePlacemarksGo skipInvalid now rest (errCount + 1) acc
      else .error ("Error parsing placemark: " ++ e)

/-- Models KmlParser::parse_file in kml_parser.rs at the level of accumulated
placemarks (XML event reading abstracted away): each placemark is converted with
to_record under the same skip-or-abort policy as the tabular parser. -/
def parse_kml_placemarks (skipInvalid : Bool) (now : NaiveDateTime)
    (pms : List PlacemarkData) : Except String (List GNetTrackRecord × Nat) :=
  parsePlacemarksGo skipInvalid now pms 0 []

/-- Connection settings, from config.rs: username and password are plain strings
while org and token are optional. -/
structure InfluxDbConfig where
  url : String
  database : String
  username : String
  password : String
  org : Option String
  token : Option String
deriving DecidableEq, Repr

/-- Observable state of an influxdb 1.x client: endpoint, database and the basic
auth credentials attached with with_auth, if any. -/
structure InfluxDB1Client where
  url : String
  database : String
  auth : Option (String × String)
deriving DecidableEq, Repr

/-- Models influxdb::Client::new. -/
def InfluxDB1Client.new (url database : String) : InfluxDB1Client := ⟨url, database, none⟩

/-- Models influxdb::Client::with_auth. -/
def InfluxDB1Client.withAuth (c : InfluxDB1Client) (username password : String) :
    InfluxDB1Client :=
  { c with auth := some (username, password) }

/-- Observable state of an influxdb2 client. -/
structure InfluxDB2Client where
  url : String
  org : String
  token : String
deriving DecidableEq, Repr

/-- Models influxdb2::Client::new. -/
def InfluxDB2Client.new (url org token : String) : InfluxDB2Client := ⟨url, org, token⟩

/-- The two wire dialects of influx_client.rs: V1 carries the client and the
database name, V2 carries the client, the organization and the bucket name. -/
inductive InfluxClient where
  | V1 : InfluxDB1Client → String → InfluxClient
  | V2 : InfluxDB2Client → String → String → InfluxClient
deriving DecidableEq, Repr

/-- The InfluxDB 1.x fallback at the bottom of InfluxClient::new: basic auth is
attached exactly when the configured username is non-empty. -/
def influxV1Fallback (config : InfluxDbConfig) : Except String InfluxClient :=
  let client :=
    if config.username ≠ "" then
      (InfluxDB1Client.new config.url config.database).withAuth config.username config.password
    else InfluxDB1Client.new config.url config.database
  .ok (.V1 client config.database)

/-- Models InfluxClient::new in influx_client.rs: dialect V2 is selected exactly
when a non-empty token and a non-empty org are both configured, reusing the
configured database name as the bucket; every other case falls through to V1. -/
def InfluxClient.new (config : InfluxDbConfig) : Except String InfluxClient :=
  match config.token with
  | some token =>
    if token ≠ "" then
      match config.org with
      | some org =>
        if org ≠ "" then
          .ok (.V2 (InfluxDB2Client.new config.url org token) org config.database)
        else influxV1Fallback config
      | none => influxV1Fallback config
    else influxV1Fallback config
  | none => influxV1Fallback config

/-- True on the V2 variant. -/
def InfluxClient.isV2 : InfluxClient → Bool
  | .V2 _ _ _ => true
  | .V1 _ _ => false

/-- Bucket name of a V2 client, none for V1. -/
def InfluxClient.bucketName : InfluxClient → Option String
  | .V2 _ _ bucket => some bucket
  | .V1 _ _ => none

/-- Basic auth credentials of a V1 client (none inside the outer some means a V1
client without auth); none for V2. -/
def InfluxClient.v1Auth : InfluxClient → Option (Option (String × String))
  | .V1 c _ => some c.auth
  | .V2 _ _ _ => none

/-- Typed value of one point field: numeric fields come from the optional
rational measurements, text fields from the optional string attributes. -/
inductive FieldValue where
  | num : ℚ → FieldValue
  | str : String → FieldValue
deriving DecidableEq, Repr

/-- Observable content of one WriteQuery point built by write_records_v1. -/
structure WriteQuery where
  measurement : String
  timestampNanosValue : Int
  tags : List (String × String)
  fields : List (String × FieldValue)
deriving DecidableEq, Repr

/-- Appends a tag when the attribute is present, as the add_tag calls guarded by
if-let do. -/
def addOptTag (q : WriteQuery) (name : String) : Option String → WriteQuery
  | some s => { q with tags := q.tags ++ [(name, s)] }
  | none => q

/-- Appends a numeric field when the measurement is present. -/
def addOptNumField (q : WriteQuery) (name : String) : Option ℚ → WriteQuery
  | some x => { q with fields := q.fields ++ [(name, .num x)] }
  | none => q

/-- Appends a text field when the attribute is present. -/
def addOptStrField (q : WriteQuery) (name : String) : Option String → WriteQuery
  | some s => { q with fields := q.fields ++ [(name, .str s)] }
  | none => q

/-- Models the per-record point construction inside
InfluxClient::write_records_v1 in influx_client.rs: a fixed measurement name and
constant tag, then each present text attribute of the first group as a tag, each
present numeric measurement as a numeric field and each remaining present text
attribute as a text field, in source order. -/
def to_write_query_v1 (r : GNetTrackRecord) : WriteQuery :=
  let q : WriteQuery :=
    { measurement := "network_measurements",
      timestampNanosValue := timestampNanosOrZero r.timestamp,
      tags := [("measurement_type", "gnettrack")], fields := [] }
  let q := addOptTag q "operator_name" r.operator_name
  let q := addOptTag q "operator_code" r.operator_code
  let q := addOptTag q "cell_id" r.cell_id
  let q := addOptTag q "network_tech" r.network_tech
  let q := addOptTag q "network_mode" r.network_mode
  let q := addOptTag q "lac" r.lac
  let q := addOptNumField q "longitude" r.longitude
  let q := addOptNumField q "latitude" r.latitude
  let q := addOptNumField q "speed" r.speed
  let q := addOptNumField q "level" r.level
  let q := addOptNumField q "qual" r.qual
  let q := addOptNumField q "snr" r.snr
  let q := addOptNumField q "cqi" r.cqi
  let q := addOptNumField q "dl_bitrate" r.dl_bitrate
  let q := addOptNumField q "ul_bitrate" r.ul_bitrate
  let q := addOptStrField q "cgi" r.cgi
  let q := addOptStrField q "cellname" r.cellname
  let q := addOptStrField q "node" r.node
  let q := addOptStrField q "arfcn" r.arfcn
  q

/-- Fuel-driven chunking loop; fuel is any bound at least the list length, and
the callers only reach it with a positive chunk size. -/
def chunkGo {α : Type} (b : Nat) : Nat → List α → List (List α)
  | _, [] => []
  | 0, l => [l]
  | fuel + 1, l => l.take b :: chunkGo b fuel (l.drop b)

/-- Models slice::chunks for a positive chunk size: consecutive chunks of b
elements with only the last one possibly shorter.  Rust panics on a zero chunk
size; write_records_batch guards its only call behind the empty-input early
return, and the panic is modelled there. -/
def chunksOf {α : Type} (b : Nat) (l : List α) : List (List α) :=
  chunkGo b l.length l

/-- Sequential chunk loop of write_records_batch, with the wire outcome of each
write_records call abstracted as an oracle indexed by call order.  Returns the
chunks actually attempted, in order, together with the final outcome: the first
failing call stops the loop at once and earlier chunks stay written. -/
def runBatch {α : Type} (w : Nat → List α → Except String Unit) :
    Nat → List (List α) → List (List α) × Except String Unit
  | _, [] => ([], .ok ())
  | i, c :: cs =>
    match w i c with
    | .error e => ([c], .error e)
    | .ok _ =>
      let r := runBatch w (i + 1) cs
      (c :: r.1, r.2)

/-- Models InfluxClient::write_records_batch in influx_client.rs: empty input
succeeds at once with no write call; otherwise the records are chunked and
written sequentially.  The slice chunking panics in Rust when batchSize is zero
and the records are non-empty, modelled as none. -/
def write_records_batch {α : Type} (w : Nat → List α → Except String Unit)
    (records : List α) (batchSize : Nat) : Option (List (List α) × Except String Unit) :=
  if records.isEmpty then some ([], .ok ())
  else if batchSize = 0 then none
  else some (runBatch w 0 (chunksOf batchSize records))

/-- Outcome of one tokenized line of a tabular file: a reader error stays an
error, a tokenized row is converted with from_csv_record. -/
def rowOutcome (now : NaiveDateTime) (headers : List String) :
    Except String (List String) → Except String GNetTrackRecord
  | .ok row => from_csv_record now row headers
  | .error e => .error e

/-- The source checks if let Some(x) together with x.is_empty(): true exactly for
a configured non-empty optional string. -/
def optNonEmptyB : Option String → Bool
  | none => false
  | some s => decide (s ≠ "")

/-- Tag list contributed by one optional text attribute. -/
def optPair (n : String) : Option String → List (String × String)
  | some s => [(n, s)]
  | none => []

/-- Field list contributed by one optional numeric measurement. -/
def optNumPair (n : String) : Option ℚ → List (String × FieldValue)
  | some x => [(n, .num x)]
  | none => []

/-- Field list contributed by one optional text field. -/
def optStrPair (n : String) : Option String → List (String × FieldValue)
  | some s => [(n, .str s)]
  | none => []

/-- A record with no observations, used as the element of concrete batch runs. -/
def dummyRecord : GNetTrackRecord := initRecord epochDT

/-- Concrete batch scenario: 2500 records. -/
def recs2500 : List GNetTrackRecord := List.replicate 2500 dummyRecord

/-- Write oracle for which every call succeeds. -/
def wAllOk : Nat → List GNetTrackRecord → Except String Unit := fun _ _ => .ok ()

/-- Write oracle for which exactly the second call (index 1) fails. -/
def wFailSecond : Nat → List GNetTrackRecord → Except String Unit :=
  fun i _ => if i = 1 then .error "write failed" else .ok ()

/-- Concrete V2 configuration: non-empty token and org. -/
def cfgV2Ex : InfluxDbConfig :=
  ⟨"http://localhost:8086", "gnettrack", "", "", some "myorg", some "mytoken"⟩

/-- Concrete placemark of the KML round-trip scenario. -/
def pdC6 : PlacemarkData :=
  ((((PlacemarkData.new.addData "RSRP" "-95 dBm").addData "時間"
    "2025.10.03_10.20.09").addData "速度" "42 km/h").setCoordinates "139.123,35.456,10")

/-- Concrete placemark whose coordinates string has a single, numeric token. -/
def pdC8 : PlacemarkData := PlacemarkData.new.setCoordinates "139.123"

/-- Concrete placemark with a full three-token coordinates string. -/
def pdC8w : PlacemarkData := PlacemarkData.new.setCoordinates "139.123,35.456,10"

/-- Concrete placemark whose time string matches no format. -/
def pdBadTime : PlacemarkData := PlacemarkData.new.addData "時間" "not-a-date"

/-- Length spectrum of the chunking loop: the chunk lengths chunkGo produces,
computed on the input length alone. -/
def chunkLens (b : Nat) : Nat → Nat → List Nat
  | _, 0 => []
  | 0, n => [n]
  | fuel + 1, n => min b n :: chunkLens b fuel (n - b)

theorem chunkGo_nil {α : Type} (b : Nat) : ∀ fuel, chunkGo b fuel ([] : List α) = [] := by
  intro fuel
  cases fuel <;> simp [chunkGo]

theorem chunkGo_flatten {α : Type} (b : Nat) (hb : 0 < b) :
    ∀ (fuel : Nat) (l : List α), l.length ≤ fuel → (chunkGo b fuel l).flatten = l := by
  intro fuel
  induction fuel with
  | zero =>
    intro l hl
    cases l with
    | nil => simp [chunkGo]
    | cons x xs => simp at hl
  | succ fuel ih =>
    intro l hl
    cases l with
    | nil => simp [chunkGo]
    | cons x xs =>
      have hlen : ((x :: xs).drop b).length ≤ fuel := by
        rw [List.length_drop, List.length_cons]
        simp only [List.length_cons] at hl
        omega
      simp only [chunkGo, List.flatten_cons, ih _ hlen, List.take_append_drop]

theorem chunkGo_mem {α : Type} (b : Nat) (hb : 0 < b) :
    ∀ (fuel : Nat) (l : List α), l.length ≤ fuel →
      ∀ c ∈ chunkGo b fuel l, c ≠ [] ∧ c.length ≤ b := by
  intro fuel
  induction fuel with
  | zero =>
    intro l hl c hc
    cases l with
    | nil => simp [chunkGo] at hc
    | cons x xs => simp at hl
  | succ fuel ih =>
    intro l hl c hc
    cases l with
    | nil => simp [chunkGo] at hc
    | cons x xs =>
      simp only [chunkGo, List.mem_cons] at hc
      rcases hc with hc | hc
      · subst hc
        constructor
        · simp [List.take_eq_nil_iff]
          omega
        · rw [List.length_take]
          omega
      · have hlen : ((x :: xs).drop b).length ≤ fuel := by
          rw [List.length_drop, List.length_cons]
          simp only [List.length_cons] at hl
          omega
        exact ih _ hlen c hc

theorem chunkGo_full {α : Type} (b : Nat) (hb : 0 < b) :
    ∀ (fuel : Nat) (l : List α), l.length ≤ fuel →
      ∀ (l1 : List (List α)) (c : List α) (l2 : List (List α)),
        chunkGo b fuel l = l1 ++ c :: l2 → l2 ≠ [] → c.length = b := by
  intro fuel
  induction fuel with
  | zero =>
    intro l hl l1 c l2 heq hne
    cases l with
    | nil => simp [chunkGo] at heq
    | cons x xs => simp at hl
  | succ fuel ih =>
    intro l hl l1 c l2 heq hne
    cases l with
    | nil => simp [chunkGo] at heq
    | cons x xs =>
      simp only [chunkGo] at heq
      have hlen : ((x :: xs).drop b).length ≤ fuel := by
        rw [List.length_drop, List.length_cons]
        simp only [List.length_cons] at hl
        omega
      cases l1 with
      | nil =>
        simp only [List.nil_append, List.cons.injEq] at heq
        obtain ⟨hc, hrest⟩ := heq
        have hdrop : (x :: xs).drop b ≠ [] := by
          intro hd
          rw [hd, chunkGo_nil] at hrest
          exact hne hrest.symm
        have hgt : b < (x :: xs).length := by
          by_contra hle
          push_neg at hle
          exact hdrop (List.drop_eq_nil_iff.mpr hle)
        simp only [List.length_cons] at hgt
        subst hc
        rw [List.length_take, List.length_cons]
        omega
      | cons y l1t =>
        simp only [List.cons_append, List.cons.injEq] at heq
        exact ih _ hlen l1t c l2 heq.2 hne

theorem runBatch_trace {α : Type} (w : Nat → List α → Except String Unit) :
    ∀ (cs : List (List α)) (i : Nat), ∃ rest, (runBatch w i cs).1 ++ rest = cs := by
  intro cs
  induction cs with
  | nil => intro i; exact ⟨[], rfl⟩
  | cons c cs ih =>
    intro i
    cases hw : w i c with
    | error e => exact ⟨cs, by simp [runBatch, hw]⟩
    | ok u =>
      obtain ⟨rest, hrest⟩ := ih (i + 1)
      exact ⟨rest, by simp [runBatch, hw, hrest]⟩

theorem runBatch_ok {α : Type} (w : Nat → List α → Except String Unit) :
    ∀ (cs : List (List α)) (i : Nat), (runBatch w i cs).2 = .ok () →
      (runBatch w i cs).1 = cs ∧ ∀ j, j < cs.length → w (i + j) (cs.getD j []) = .ok () := by
  intro cs
  induction cs with
  | nil =>
    intro i _
    exact ⟨rfl, by intro j hj; simp at hj⟩
  | cons c cs ih =>
    intro i hok
    cases hw : w i c with
    | error e => simp [runBatch, hw] at hok
    | ok u =>
      simp only [runBatch, hw] at hok ⊢
      obtain ⟨htr, hall⟩ := ih (i + 1) hok
      refine ⟨by simp [htr], ?_⟩
      intro j hj
      cases j with
      | zero =>
        cases u
        simpa using hw
      | succ j =>
        have := hall j (by simpa using hj)
        have harith : i + (j + 1) = i + 1 + j := by omega
        rw [harith]
        simpa using this

theorem runBatch_error {α : Type} (w : Nat → List α → Except String Unit) :
    ∀ (cs : List (List α)) (i : Nat) (e : String), (runBatch w i cs).2 = .error e →
      ∃ pre c post, cs = pre ++ c :: post ∧ (runBatch w i cs).1 = pre ++ [c] ∧
        w (i + pre.length) c = .error e ∧
        ∀ j, j < pre.length → w (i + j) (pre.getD j []) = .ok () := by
  intro cs
  induction cs with
  | nil => intro i e he; simp [runBatch] at he
  | cons c cs ih =>
    intro i e he
    cases hw : w i c with
    | error e0 =>
      simp only [runBatch, hw] at he ⊢
      cases he
      refine ⟨[], c, cs, rfl, rfl, by simpa using hw, ?_⟩
      intro j hj
      simp at hj
    | ok u =>
      simp only [runBatch, hw] at he ⊢
      obtain ⟨pre, c2, post, hsplit, htr, hfail, hall⟩ := ih (i + 1) e he
      refine ⟨c :: pre, c2, post, by simp [hsplit], by simp [htr], ?_, ?_⟩
      · have harith : i + (c :: pre).length = i + 1 + pre.length := by simp; omega
        rw [harith]
        exact hfail
      · intro j hj
        cases j with
        | zero =>
          cases u
          simpa using hw
        | succ j =>
          have := hall j (by simpa using hj)
          have harith : i + (j + 1) = i + 1 + j := by omega
          rw [harith]
          simpa using this

theorem chunkGo_map_length {α : Type} (b : Nat) :
    ∀ (fuel : Nat) (l : List α), (chunkGo b fuel l).map List.length = chunkLens b fuel l.length := by
  intro fuel
  induction fuel with
  | zero => intro l; cases l <;> simp [chunkGo, chunkLens]
  | succ fuel ih =>
    intro l
    cases l with
    | nil => simp [chunkGo, chunkLens]
    | cons x xs =>
      simp only [chunkGo, List.map_cons, ih, List.length_take, List.length_drop,
        List.length_cons]
      rfl

theorem runBatch_all_ok {α : Type} (w : Nat → List α → Except String Unit)
    (hw : ∀ i c, w i c = .ok ()) :
    ∀ (cs : List (List α)) (i : Nat), runBatch w i cs = (cs, .ok ()) := by
  intro cs
  induction cs with
  | nil => intro i; rfl
  | cons c cs ih => intro i; simp [runBatch, hw i c, ih (i + 1)]

theorem chunksOf_recs2500_map_length :
    (chunksOf 1000 recs2500).map List.length = [1000, 1000, 500] := by
  show (chunkGo 1000 recs2500.length recs2500).map List.length = _
  rw [chunkGo_map_length 1000 recs2500.length recs2500]
  have hlen : recs2500.length = 2500 := by simp [recs2500]
  rw [hlen]
  decide

theorem wrb_recs2500_some (w : Nat → List GNetTrackRecord → Except String Unit) :
    write_records_batch w recs2500 1000 = some (runBatch w 0 (chunksOf 1000 recs2500)) := by
  rw [show recs2500 = dummyRecord :: List.replicate 2499 dummyRecord from rfl]
  simp [write_records_batch]

theorem c1_concrete_all_ok :
    (write_records_batch wAllOk recs2500 1000).map
      (fun o => (o.1.map List.length, exIsOk o.2)) = some ([1000, 1000, 500], true) := by
  rw [wrb_recs2500_some wAllOk, runBatch_all_ok wAllOk (fun i c => rfl) _ 0]
  simp [exIsOk, chunksOf_recs2500_map_length]

theorem c1_concrete_fail_second :
    (write_records_batch wFailSecond recs2500 1000).map
      (fun o => (o.1.map List.length, exIsOk o.2)) = some ([1000, 1000], false) := by
  rw [wrb_recs2500_some wFailSecond]
  have hmap := chunksOf_recs2500_map_length
  rcases hcs : chunksOf 1000 recs2500 with _ | ⟨c0, cs1⟩
  · rw [hcs] at hmap
    simp at hmap
  · rcases cs1 with _ | ⟨c1, cs2⟩
    · rw [hcs] at hmap
      simp at hmap
    · rw [hcs] at hmap
      simp only [List.map_cons, List.cons.injEq] at hmap
      obtain ⟨h0, h1, _⟩ := hmap
      simp [runBatch, wFailSecond, exIsOk, h0, h1]

/-- C1: write_records_batch splits the record sequence into consecutive chunks of
at most batchSize records in order (only the last chunk may be smaller), calls
write_records once per chunk sequentially, and the first failing chunk aborts the
operation and propagates that error with all earlier chunks already written and
not rolled back; for 2500 records and batchSize 1000 exactly three calls of sizes
1000, 1000, 500 occur in that order, and a failure on the second call stops after
exactly two attempted calls. -/
theorem c1_write_records_batch_chunking {α : Type}
    (w : Nat → List α → Except String Unit) (records : List α) (b : Nat) (hb : 0 < b) :
    (∃ out, write_records_batch w records b = some out ∧
      (∃ rest, out.1 ++ rest = chunksOf b records) ∧
      (out.2 = .ok () → out.1 = chunksOf b records ∧
        ∀ j, j < out.1.length → w j (out.1.getD j []) = .ok ()) ∧
      (∀ e, out.2 = .error e → ∃ pre c post, chunksOf b records = pre ++ c :: post ∧
        out.1 = pre ++ [c] ∧ w pre.length c = .error e ∧
        ∀ j, j < pre.length → w j (pre.getD j []) = .ok ())) ∧
    (chunksOf b records).flatten = records ∧
    (∀ c ∈ chunksOf b records, c ≠ [] ∧ c.length ≤ b) ∧
    (∀ l1 c l2, chunksOf b records = l1 ++ c :: l2 → l2 ≠ [] → c.length = b) ∧
    (write_records_batch wAllOk recs2500 1000).map
      (fun o => (o.1.map List.length, exIsOk o.2)) = some ([1000, 1000, 500], true) ∧
    (write_records_batch wFailSecond recs2500 1000).map
      (fun o => (o.1.map List.length, exIsOk o.2)) = some ([1000, 1000], false) := by
  refine ⟨?_, chunkGo_flatten b hb records.length records le_rfl,
    chunkGo_mem b hb records.length records le_rfl,
    chunkGo_full b hb records.length records le_rfl,
    c1_concrete_all_ok, c1_concrete_fail_second⟩
  cases records with
  | nil =>
    refine ⟨([], .ok ()), by simp [write_records_batch],
      ⟨[], by simp [chunksOf, chunkGo]⟩, ?_, ?_⟩
    · intro _
      exact ⟨by simp [chunksOf, chunkGo], by intro j hj; simp at hj⟩
    · intro e he
      simp at he
  | cons x xs =>
    have hwrb : write_records_batch w (x :: xs) b =
        some (runBatch w 0 (chunksOf b (x :: xs))) := by
      simp [write_records_batch, Nat.pos_iff_ne_zero.mp hb]
    refine ⟨runBatch w 0 (chunksOf b (x :: xs)), hwrb,
      runBatch_trace w (chunksOf b (x :: xs)) 0, ?_, ?_⟩
    · intro hok
      obtain ⟨htr, hall⟩ := runBatch_ok w (chunksOf b (x :: xs)) 0 hok
      refine ⟨htr, ?_⟩
      intro j hj
      rw [htr] at hj ⊢
      simpa using hall j hj
    · intro e he
      obtain ⟨pre, c, post, hsplit, htr, hfail, hall⟩ :=
        runBatch_error w (chunksOf b (x :: xs)) 0 e he
      exact ⟨pre, c, post, hsplit, htr, by simpa using hfail,
        by intro j hj; simpa using hall j hj⟩

/-- Witness for C1 at 2500 records and batch size 1000. -/
theorem c1_write_records_batch_chunking_witness :
    (write_records_batch wAllOk recs2500 1000).map
      (fun o => (o.1.map List.length, exIsOk o.2)) = some ([1000, 1000, 500], true) :=
  (c1_write_records_batch_chunking wAllOk recs2500 1000 (by decide)).2.2.2.2.1

/-- C9: with a non-empty record sequence and batch size zero the slice chunking
panics (modelled as none) instead of returning an error, and the operation is
total exactly when the batch size is positive or the input is empty. -/
theorem c9_zero_batch_size_panics {α : Type} (w : Nat → List α → Except String Unit)
    (records : List α) (hr : records ≠ []) :
    write_records_batch w records 0 = none ∧
    ∀ (records2 : List α) (bs : Nat),
      (write_records_batch w records2 bs).isSome = true ↔ (0 < bs ∨ records2 = []) := by
  constructor
  · cases records with
    | nil => exact absurd rfl hr
    | cons x xs => simp [write_records_batch]
  · intro records2 bs
    cases records2 with
    | nil => simp [write_records_batch]
    | cons x xs =>
      by_cases hbs : bs = 0
      · subst hbs
        simp [write_records_batch]
      · simp [write_records_batch, hbs]
        omega

/-- Witness for C9 at a one-element list. -/
theorem c9_zero_batch_size_panics_witness :
    write_records_batch (fun _ _ => (Except.ok () : Except String Unit)) [(0 : Nat)] 0 = none :=
  (c9_zero_batch_size_panics (fun _ _ => (Except.ok () : Except String Unit)) [0] (by decide)).1

/-- C2: client construction selects dialect V2 exactly when both the auth token
and the organization name are configured and non-empty, reusing the configured
database name as the V2 bucket name; every other case selects dialect V1, with
basic auth attached if and only if the configured username is non-empty. -/
theorem c2_dialect_selection (config : InfluxDbConfig) :
    ((InfluxClient.new config).map InfluxClient.isV2 =
      .ok (optNonEmptyB config.token && optNonEmptyB config.org)) ∧
    ((optNonEmptyB config.token && optNonEmptyB config.org) = true →
      (InfluxClient.new config).map InfluxClient.bucketName = .ok (some config.database)) ∧
    ((optNonEmptyB config.token && optNonEmptyB config.org) = false →
      (InfluxClient.new config).map InfluxClient.v1Auth =
        .ok (some (if config.username = "" then none
          else some (config.username, config.password)))) := by
  have hfb : ∀ cfg : InfluxDbConfig,
      (influxV1Fallback cfg).map InfluxClient.isV2 = .ok false ∧
      (influxV1Fallback cfg).map InfluxClient.v1Auth =
        .ok (some (if cfg.username = "" then none
          else some (cfg.username, cfg.password))) := by
    intro cfg
    by_cases h : cfg.username = "" <;>
      simp [influxV1Fallback, h, InfluxClient.isV2, InfluxClient.v1Auth, Except.map,
        InfluxDB1Client.new, InfluxDB1Client.withAuth]
  have hsplit : ((optNonEmptyB config.token && optNonEmptyB config.org) = false ∧
      InfluxClient.new config = influxV1Fallback config) ∨
      ((optNonEmptyB config.token && optNonEmptyB config.org) = true ∧
        ∃ t o, config.token = some t ∧ config.org = some o ∧
          InfluxClient.new config =
            .ok (.V2 (InfluxDB2Client.new config.url o t) o config.database)) := by
    obtain ⟨url, database, username, password, org, token⟩ := config
    cases token with
    | none => exact Or.inl ⟨by simp [optNonEmptyB], by simp [InfluxClient.new]⟩
    | some t =>
      by_cases ht : t = ""
      · exact Or.inl ⟨by simp [optNonEmptyB, ht], by simp [InfluxClient.new, ht]⟩
      · cases org with
        | none =>
          exact Or.inl ⟨by simp [optNonEmptyB], by simp [InfluxClient.new, ht]⟩
        | some o =>
          by_cases ho : o = ""
          · exact Or.inl ⟨by simp [optNonEmptyB, ho], by simp [InfluxClient.new, ht, ho]⟩
          · exact Or.inr ⟨by simp [optNonEmptyB, ht, ho], t, o, rfl, rfl,
              by simp [InfluxClient.new, ht, ho]⟩
  rcases hsplit with ⟨hb, hnew⟩ | ⟨hb, t, o, htok, horg, hnew⟩
  · refine ⟨?_, ?_, ?_⟩
    · rw [hnew, hb]
      exact (hfb config).1
    · intro h2
      rw [hb] at h2
      exact absurd h2 (by simp)
    · intro _
      rw [hnew]
      exact (hfb config).2
  · refine ⟨?_, ?_, ?_⟩
    · rw [hnew, hb]
      simp [Except.map, InfluxClient.isV2]
    · intro _
      rw [hnew]
      simp [Except.map, InfluxClient.bucketName]
    · intro h2
      rw [hb] at h2
      exact absurd h2 (by simp)

/-- Witness for C2 at a configuration with non-empty token and org. -/
theorem c2_dialect_selection_witness :
    (InfluxClient.new cfgV2Ex).map InfluxClient.isV2 = .ok true := by
  have h := (c2_dialect_selection cfgV2Ex).1
  rw [h]
  decide

theorem tryFormats_append_some (v : String) :
    ∀ (l1 : List String) (f : String) (l2 : List String) (dt : NaiveDateTime),
      (∀ g ∈ l1, parseFromStr v g = none) → parseFromStr v f = some dt →
      tryFormats v (l1 ++ f :: l2) = some dt := by
  intro l1
  induction l1 with
  | nil =>
    intro f l2 dt _ hf
    simp [tryFormats, hf]
  | cons g l1t ih =>
    intro f l2 dt hnone hf
    have hg : parseFromStr v g = none := hnone g (List.mem_cons_self g l1t)
    simp only [List.cons_append, tryFormats, hg]
    exact ih f l2 dt (fun g2 hg2 => hnone g2 (List.mem_cons_of_mem g hg2)) hf

theorem tryFormats_eq_none (v : String) :
    ∀ (fs : List String), tryFormats v fs = none ↔ ∀ f ∈ fs, parseFromStr v f = none := by
  intro fs
  induction fs with
  | nil => simp [tryFormats]
  | cons f fs ih =>
    cases hf : parseFromStr v f with
    | some dt => simp [tryFormats, hf]
    | none => simp [tryFormats, hf, ih]

/-- C3: for a recognized timestamp column, an empty value yields the current time
and never a failure; a non-empty value is tried against the fixed ordered format
list with the first match winning, then as a Unix epoch-second integer; the row
fails only when all of these fail. -/
theorem c3_timestamp_fallback_policy (now : NaiveDateTime) (v : String) :
    (v = "" → parse_timestamp now v = .ok now) ∧
    (∀ l1 f l2 dt, timestampFormats = l1 ++ f :: l2 →
      (∀ g ∈ l1, parseFromStr v g = none) → parseFromStr v f = some dt →
      v ≠ "" → parse_timestamp now v = .ok dt) ∧
    ((∀ f ∈ timestampFormats, parseFromStr v f = none) →
      ∀ n dt, parseI64 v = some n → fromTimestamp n = some dt →
      v ≠ "" → parse_timestamp now v = .ok dt) ∧
    (∀ e, parse_timestamp now v = .error e →
      v ≠ "" ∧ (∀ f ∈ timestampFormats, parseFromStr v f = none) ∧
      (∀ n, parseI64 v = some n → fromTimestamp n = none)) ∧
    (∀ (h : String) (r : GNetTrackRecord),
      (strToLower h = "timestamp" ∨ strToLower h = "time") →
      applyCell now h v r = (parse_timestamp now v).map
        (fun ts => { r with timestamp := ts })) := by
  refine ⟨?_, ?_, ?_, ?_, ?_⟩
  · intro hv
    simp [parse_timestamp, hv]
  · intro l1 f l2 dt heq hnone hsome hne
    unfold parse_timestamp
    rw [if_neg hne, heq, tryFormats_append_some v l1 f l2 dt hnone hsome]
  · intro hall n dt hn hdt hne
    have h1 := (tryFormats_eq_none v timestampFormats).mpr hall
    simp [parse_timestamp, hne, h1, hn, hdt]
  · intro e he
    by_cases hv : v = ""
    · rw [hv] at he
      simp [parse_timestamp] at he
    · refine ⟨hv, ?_, ?_⟩
      · unfold parse_timestamp at he
        rw [if_neg hv] at he
        cases h1 : tryFormats v timestampFormats with
        | some dt => rw [h1] at he; exact absurd he (by simp)
        | none => exact (tryFormats_eq_none v timestampFormats).mp h1
      · intro n hn
        cases h2 : fromTimestamp n with
        | none => rfl
        | some dt2 =>
          exfalso
          cases h1 : tryFormats v timestampFormats with
          | some dt =>
            have hok : parse_timestamp now v = .ok dt := by
              simp [parse_timestamp, hv, h1]
            rw [hok] at he
            exact Except.noConfusion he
          | none =>
            have hok : parse_timestamp now v = .ok dt2 := by
              simp [parse_timestamp, hv, h1, hn, h2]
            rw [hok] at he
            exact Except.noConfusion he
  · intro h r hh
    unfold applyCell
    rw [if_pos hh]
    cases hp : parse_timestamp now v <;> simp [Except.map]

/-- Witness for C3: the first format matches a dash-separated date-time. -/
theorem c3_timestamp_fallback_policy_witness :
    parse_timestamp epochDT "2025-01-02 03:04:05" = .ok ⟨2025, 1, 2, 3, 4, 5, 0⟩ :=
  (c3_timestamp_fallback_policy epochDT "2025-01-02 03:04:05").2.1
    [] "%Y-%m-%d %H:%M:%S"
    ["%Y/%m/%d %H:%M:%S", "%d.%m.%Y %H:%M:%S", "%Y-%m-%d %H:%M:%S%.3f",
      "%Y-%m-%dT%H:%M:%S", "%Y-%m-%dT%H:%M:%SZ", "%Y-%m-%dT%H:%M:%S%.3fZ"]
    ⟨2025, 1, 2, 3, 4, 5, 0⟩ rfl (by simp) (by decide) (by decide)

theorem parseRowsGo_skip (now : NaiveDateTime) (headers : List String) :
    ∀ (rows : List (Except String (List String))) (lineNum errCount : Nat)
      (acc : List GNetTrackRecord),
      parseRowsGo true now headers lineNum rows errCount acc =
        .ok (acc.reverse ++ rows.filterMap (fun r => (rowOutcome now headers r).toOption),
          errCount + rows.countP (fun r => !exIsOk (rowOutcome now headers r))) := by
  intro rows
  induction rows with
  | nil =>
    intro lineNum errCount acc
    simp [parseRowsGo]
  | cons r rest ih =>
    intro lineNum errCount acc
    cases r with
    | ok row =>
      cases hfc : from_csv_record now row headers with
      | ok rec =>
        simp only [parseRowsGo, hfc]
        rw [ih]
        simp [rowOutcome, hfc, exIsOk, List.countP_cons, List.filterMap_cons, Except.toOption]
      | error e =>
        simp only [parseRowsGo, hfc, if_true]
        rw [ih]
        simp only [rowOutcome, hfc, exIsOk, List.countP_cons, List.filterMap_cons]
        refine congrArg Except.ok ?_
        refine Prod.ext ?_ ?_
        · simp [Except.toOption]
        · simp
          omega
    | error e =>
      simp only [parseRowsGo, if_true]
      rw [ih]
      simp only [rowOutcome, exIsOk, List.countP_cons, List.filterMap_cons]
      refine congrArg Except.ok ?_
      refine Prod.ext ?_ ?_
      · simp [Except.toOption]
      · simp
        omega

theorem parseRowsGo_abort_record (now : NaiveDateTime) (headers : List String) :
    ∀ (pre : List (Except String (List String))) (lineNum errCount : Nat)
      (acc : List GNetTrackRecord) (row : List String) (e : String)
      (rest : List (Except String (List String))),
      (∀ r ∈ pre, exIsOk (rowOutcome now headers r) = true) →
      from_csv_record now row headers = .error e →
      parseRowsGo false now headers lineNum (pre ++ .ok row :: rest) errCount acc =
        .error ("Error parsing record at line " ++
          natToStr (lineNum + pre.length + 2) ++ ": " ++ e) := by
  intro pre
  induction pre with
  | nil =>
    intro lineNum errCount acc row e rest _ hfc
    simp [parseRowsGo, hfc]
  | cons r pre ih =>
    intro lineNum errCount acc row e rest hpre hfc
    have hr := hpre r (List.mem_cons_self r pre)
    cases r with
    | error e2 => simp [rowOutcome, exIsOk] at hr
    | ok row2 =>
      cases hfc2 : from_csv_record now row2 headers with
      | error e2 => simp [rowOutcome, hfc2, exIsOk] at hr
      | ok rec =>
        rw [List.cons_append]
        simp only [parseRowsGo, hfc2]
        rw [ih (lineNum + 1) errCount (rec :: acc) row e rest
          (fun r2 h2 => hpre r2 (List.mem_cons_of_mem _ h2)) hfc]
        have harith : lineNum + 1 + pre.length + 2 = lineNum + (pre.length + 1) + 2 := by
          omega
        rw [harith]
        simp [List.length_cons]

theorem parseRowsGo_abort_reader (now : NaiveDateTime) (headers : List String) :
    ∀ (pre : List (Except String (List String))) (lineNum errCount : Nat)
      (acc : List GNetTrackRecord) (e : String)
      (rest : List (Except String (List String))),
      (∀ r ∈ pre, exIsOk (rowOutcome now headers r) = true) →
      parseRowsGo false now headers lineNum (pre ++ .error e :: rest) errCount acc =
        .error ("Error reading line " ++ natToStr (lineNum + pre.length + 2) ++ ": " ++ e) := by
  intro pre
  induction pre with
  | nil =>
    intro lineNum errCount acc e rest _
    simp [parseRowsGo]
  | cons r pre ih =>
    intro lineNum errCount acc e rest hpre
    have hr := hpre r (List.mem_cons_self r pre)
    cases r with
    | error e2 => simp [rowOutcome, exIsOk] at hr
    | ok row2 =>
      cases hfc2 : from_csv_record now row2 headers with
      | error e2 => simp [rowOutcome, hfc2, exIsOk] at hr
      | ok rec =>
        rw [List.cons_append]
        simp only [parseRowsGo, hfc2]
        rw [ih (lineNum + 1) errCount (rec :: acc) e rest
          (fun r2 h2 => hpre r2 (List.mem_cons_of_mem _ h2))]
        have harith : lineNum + 1 + pre.length + 2 = lineNum + (pre.length + 1) + 2 := by
          omega
        rw [harith]
        simp [List.length_cons]

/-- C4: with skip_invalid unset, the first malformed row (unparseable timestamp
or untokenizable line) aborts the whole parse with an error citing the 1-based
line number in which the header counts as line 1, so the row at 0-based data
index i is reported as line i + 2; with skip_invalid set, each such row is
counted and skipped and all other rows are still returned in order. -/
theorem c4_row_failure_policy (now : NaiveDateTime) (headers : List String) :
    (∀ (pre : List (Except String (List String))) (row : List String) (e : String)
      (rest : List (Except String (List String))),
      (∀ r ∈ pre, exIsOk (rowOutcome now headers r) = true) →
      from_csv_record now row headers = .error e →
      parse_file_rows false now headers (pre ++ .ok row :: rest) =
        .error ("Error parsing record at line " ++ natToStr (pre.length + 2) ++ ": " ++ e)) ∧
    (∀ (pre : List (Except String (List String))) (e : String)
      (rest : List (Except String (List String))),
      (∀ r ∈ pre, exIsOk (rowOutcome now headers r) = true) →
      parse_file_rows false now headers (pre ++ .error e :: rest) =
        .error ("Error reading line " ++ natToStr (pre.length + 2) ++ ": " ++ e)) ∧
    (∀ rows, parse_file_rows true now headers rows =
      .ok (rows.filterMap (fun r => (rowOutcome now headers r).toOption),
        rows.countP (fun r => !exIsOk (rowOutcome now headers r)))) := by
  refine ⟨?_, ?_, ?_⟩
  · intro pre row e rest hpre hfc
    have h := parseRowsGo_abort_record now headers pre 0 0 [] row e rest hpre hfc
    simpa [parse_file_rows] using h
  · intro pre e rest hpre
    have h := parseRowsGo_abort_reader now headers pre 0 0 [] e rest hpre
    simpa [parse_file_rows] using h
  · intro rows
    have h := parseRowsGo_skip now headers rows 0 0 []
    simpa [parse_file_rows] using h

/-- Witness for C4: the 3rd data row of a single-column file has an unparseable
timestamp and is reported as line 4. -/
theorem c4_row_failure_policy_witness :
    parse_file_rows false epochDT ["time"]
      [.ok ["2025-01-01 00:00:00"], .ok ["2025-01-02 00:00:00"], .ok ["bad"], .ok ["123"]] =
      .error "Error parsing record at line 4: Unable to parse timestamp: bad" := by
  have h := (c4_row_failure_policy epochDT ["time"]).1
    [.ok ["2025-01-01 00:00:00"], .ok ["2025-01-02 00:00:00"]] ["bad"]
    "Unable to parse timestamp: bad" [.ok ["123"]] (by decide) (by decide)
  rw [show ([.ok ["2025-01-01 00:00:00"], .ok ["2025-01-02 00:00:00"], .ok ["bad"],
      .ok ["123"]] : List (Except String (List String))) =
    [.ok ["2025-01-01 00:00:00"], .ok ["2025-01-02 00:00:00"]] ++
      .ok ["bad"] :: [.ok ["123"]] from rfl, h]
  decide

set_option maxHeartbeats 2000000 in
/-- C5: for a numeric field value, the inputs empty string, N/A and null map to
absent; any other text that fails float parsing also maps to absent without a
row-level or record-level error (a non-timestamp cell can never fail the
record); and valid numeric text maps to exactly the parsed value. -/
theorem c5_numeric_field_tolerance (now : NaiveDateTime) (v : String) :
    ((v = "" ∨ v = "N/A" ∨ v = "null") → parse_float_optional v = none) ∧
    (parseF64 v = none → parse_float_optional v = none) ∧
    (∀ x, parseF64 v = some x → ¬(v = "" ∨ v = "N/A" ∨ v = "null") →
      parse_float_optional v = some x) ∧
    (∀ (h : String) (r : GNetTrackRecord),
      strToLower h ≠ "timestamp" → strToLower h ≠ "time" →
      ∃ r2, applyCell now h v r = .ok r2) := by
  refine ⟨?_, ?_, ?_, ?_⟩
  · intro hv
    simp [parse_float_optional, hv]
  · intro hp
    by_cases hv : v = "" ∨ v = "N/A" ∨ v = "null" <;>
      simp [parse_float_optional, hv, hp]
  · intro x hx hv
    simp [parse_float_optional, hv, hx]
  · intro h r h1 h2
    have hok : exIsOk (applyCell now h v r) = true := by
      unfold applyCell
      rw [if_neg (show ¬(strToLower h = "timestamp" ∨ strToLower h = "time") by
        simp [h1, h2])]
      by_cases c1 : (strToLower h = "longitude" ∨ strToLower h = "lon")
      · rw [if_pos c1]
        rfl
      · rw [if_neg c1]
        by_cases c2 : (strToLower h = "latitude" ∨ strToLower h = "lat")
        · rw [if_pos c2]
          rfl
        · rw [if_neg c2]
          by_cases c3 : (strToLower h = "speed")
          · rw [if_pos c3]
            rfl
          · rw [if_neg c3]
            by_cases c4 : (strToLower h = "operator" ∨ strToLower h = "operator_name")
            · rw [if_pos c4]
              rfl
            · rw [if_neg c4]
              by_cases c5 : (strToLower h = "mcc-mnc" ∨ strToLower h = "operator_code")
              · rw [if_pos c5]
                rfl
              · rw [if_neg c5]
                by_cases c6 : (strToLower h = "cgi")
                · rw [if_pos c6]
                  rfl
                · rw [if_neg c6]
                  by_cases c7 : (strToLower h = "cellname")
                  · rw [if_pos c7]
                    rfl
                  · rw [if_neg c7]
                    by_cases c8 : (strToLower h = "node" ∨ strToLower h = "rnc" ∨ strToLower h = "enodeb")
                    · rw [if_pos c8]
                      rfl
                    · rw [if_neg c8]
                      by_cases c9 : (strToLower h = "cellid" ∨ strToLower h = "cell_id")
                      · rw [if_pos c9]
                        rfl
                      · rw [if_neg c9]
                        by_cases c10 : (strToLower h = "lac")
                        · rw [if_pos c10]
                          rfl
                        · rw [if_neg c10]
                          by_cases c11 : (strToLower h = "networktech" ∨ strToLower h = "network_tech" ∨ strToLower h = "tech")
                          · rw [if_pos c11]
                            rfl
                          · rw [if_neg c11]
                            by_cases c12 : (strToLower h = "networkmode" ∨ strToLower h = "network_mode" ∨ strToLower h = "mode")
                            · rw [if_pos c12]
                              rfl
                            · rw [if_neg c12]
                              by_cases c13 : (strToLower h = "level" ∨ strToLower h = "rsrp" ∨ strToLower h = "rscp" ∨ strToLower h = "rxlevel")
                              · rw [if_pos c13]
                                rfl
                              · rw [if_neg c13]
                                by_cases c14 : (strToLower h = "qual" ∨ strToLower h = "rsrq" ∨ strToLower h = "ecno" ∨ strToLower h = "rxqual")
                                · rw [if_pos c14]
                                  rfl
                                · rw [if_neg c14]
                                  by_cases c15 : (strToLower h = "snr")
                                  · rw [if_pos c15]
                                    rfl
                                  · rw [if_neg c15]
                                    by_cases c16 : (strToLower h = "cqi")
                                    · rw [if_pos c16]
                                      rfl
                                    · rw [if_neg c16]
                                      by_cases c17 : (strToLower h = "arfcn")
                                      · rw [if_pos c17]
                                        rfl
                                      · rw [if_neg c17]
                                        by_cases c18 : (strToLower h = "dl_bitrate" ∨ strToLower h = "downlink_bitrate")
                                        · rw [if_pos c18]
                                          rfl
                                        · rw [if_neg c18]
                                          by_cases c19 : (strToLower h = "ul_bitrate" ∨ strToLower h = "uplink_bitrate")
                                          · rw [if_pos c19]
                                            rfl
                                          · rw [if_neg c19]
                                            rfl
    cases hx : applyCell now h v r with
    | ok r2 => exact ⟨r2, rfl⟩
    | error e =>
      rw [hx] at hok
      simp [exIsOk] at hok

/-- Witness for C5 at the literal N/A. -/
theorem c5_numeric_field_tolerance_witness : parse_float_optional "N/A" = none :=
  (c5_numeric_field_tolerance epochDT "N/A").1 (Or.inr (Or.inl rfl))

/-- C6: a placemark whose accumulated values are coordinates 139.123,35.456,10,
time 2025.10.03_10.20.09, RSRP -95 dBm and speed 42 km/h converts successfully
to a record with longitude 139.123, latitude 35.456, level -95, speed 42,
timestamp 2025-10-03T10:20:09Z and the fixed carrier label as operator name. -/
theorem c6_kml_round_trip :
    (pdC6.toRecord epochDT).map (fun r => r.longitude) = .ok (some (139123 / 1000 : ℚ)) ∧
    (pdC6.toRecord epochDT).map (fun r => r.latitude) = .ok (some (35456 / 1000 : ℚ)) ∧
    (pdC6.toRecord epochDT).map (fun r => r.level) = .ok (some (-95 : ℚ)) ∧
    (pdC6.toRecord epochDT).map (fun r => r.speed) = .ok (some (42 : ℚ)) ∧
    (pdC6.toRecord epochDT).map (fun r => r.timestamp) = .ok ⟨2025, 10, 3, 10, 20, 9, 0⟩ ∧
    (pdC6.toRecord epochDT).map (fun r => r.operator_name) = .ok (some "KDDI") := by
  have e1 : parseF64 "139.123" = some (139123 / 1000 : ℚ) := by
    have h : parseF64Repr "139.123" = some ⟨1, 139, 3, 123, 1, 0⟩ := by decide
    rw [parseF64, h]
    simp [DecRep.toRat]
    norm_num
  have e2 : parseF64 "35.456" = some (35456 / 1000 : ℚ) := by
    have h : parseF64Repr "35.456" = some ⟨1, 35, 3, 456, 1, 0⟩ := by decide
    rw [parseF64, h]
    simp [DecRep.toRat]
    norm_num
  have e3 : parseF64 "-95" = some (-95 : ℚ) := by
    have h : parseF64Repr "-95" = some ⟨-1, 95, 0, 0, 1, 0⟩ := by decide
    rw [parseF64, h]
    simp [DecRep.toRat]
  have e4 : parseF64 "42" = some (42 : ℚ) := by
    have h : parseF64Repr "42" = some ⟨1, 42, 0, 0, 1, 0⟩ := by decide
    rw [parseF64, h]
    simp [DecRep.toRat]
  refine ⟨?_, ?_, ?_, ?_, by decide, by decide⟩
  · rw [show (pdC6.toRecord epochDT).map (fun r => r.longitude) =
      .ok (parseF64 "139.123") from rfl, e1]
  · rw [show (pdC6.toRecord epochDT).map (fun r => r.latitude) =
      .ok (parseF64 "35.456") from rfl, e2]
  · rw [show (pdC6.toRecord epochDT).map (fun r => r.level) =
      .ok (parseF64 "-95") from rfl, e3]
  · rw [show (pdC6.toRecord epochDT).map (fun r => r.speed) =
      .ok (parseF64 "42") from rfl, e4]

theorem parsePlacemarksGo_skip (now : NaiveDateTime) :
    ∀ (pms : List PlacemarkData) (errCount : Nat) (acc : List GNetTrackRecord),
      parsePlacemarksGo true now pms errCount acc =
        .ok (acc.reverse ++ pms.filterMap (fun pd => (pd.toRecord now).toOption),
          errCount + pms.countP (fun pd => !exIsOk (pd.toRecord now))) := by
  intro pms
  induction pms with
  | nil =>
    intro errCount acc
    simp [parsePlacemarksGo]
  | cons pd rest ih =>
    intro errCount acc
    cases hpd : pd.toRecord now with
    | ok rec =>
      simp only [parsePlacemarksGo, hpd]
      rw [ih]
      simp [hpd, exIsOk, List.countP_cons, List.filterMap_cons, Except.toOption]
    | error e =>
      simp only [parsePlacemarksGo, hpd, if_true]
      rw [ih]
      simp only [exIsOk, List.countP_cons, List.filterMap_cons, hpd]
      refine congrArg Except.ok ?_
      refine Prod.ext ?_ ?_
      · simp [Except.toOption]
      · simp
        omega

theorem parsePlacemarksGo_abort (now : NaiveDateTime) :
    ∀ (pre : List PlacemarkData) (errCount : Nat) (acc : List GNetTrackRecord)
      (pd : PlacemarkData) (e : String) (rest : List PlacemarkData),
      (∀ q ∈ pre, exIsOk (q.toRecord now) = true) →
      pd.toRecord now = .error e →
      parsePlacemarksGo false now (pre ++ pd :: rest) errCount acc =
        .error ("Error parsing placemark: " ++ e) := by
  intro pre
  induction pre with
  | nil =>
    intro errCount acc pd e rest _ hpd
    simp [parsePlacemarksGo, hpd]
  | cons q pre ih =>
    intro errCount acc pd e rest hpre hpd
    have hq := hpre q (List.mem_cons_self q pre)
    cases hq2 : q.toRecord now with
    | error e2 => simp [hq2, exIsOk] at hq
    | ok rec =>
      rw [List.cons_append]
      simp only [parsePlacemarksGo, hq2]
      exact ih errCount (rec :: acc) pd e rest
        (fun q2 h2 => hpre q2 (List.mem_cons_of_mem _ h2)) hpd

/-- C7: a placemark whose accumulated time string is present but matches none of
the four timestamp patterns always fails conversion with an error (never
defaulting to the current time) regardless of skip_invalid; skip_invalid only
decides whether that single failure is skipped and counted or aborts the whole
file parse. -/
theorem c7_kml_unparseable_time (now : NaiveDateTime) (pd : PlacemarkData) (t : String)
    (ht : pd.time = some t)
    (hfail : ∀ f ∈ kmlTimestampFormats, parseFromStr (strReplace t "_" " ") f = none) :
    pd.toRecord now = .error ("Unable to parse KML timestamp: " ++ t) ∧
    (∀ pms, parse_kml_placemarks true now pms =
      .ok (pms.filterMap (fun q => (q.toRecord now).toOption),
        pms.countP (fun q => !exIsOk (q.toRecord now)))) ∧
    (∀ (pms1 pms2 : List PlacemarkData), (∀ q ∈ pms1, exIsOk (q.toRecord now) = true) →
      parse_kml_placemarks false now (pms1 ++ pd :: pms2) =
        .error ("Error parsing placemark: " ++ ("Unable to parse KML timestamp: " ++ t))) := by
  have hts : parse_kml_timestamp t = .error ("Unable to parse KML timestamp: " ++ t) := by
    simp only [parse_kml_timestamp]
    rw [(tryFormats_eq_none (strReplace t "_" " ") kmlTimestampFormats).mpr hfail]
  have hrec : pd.toRecord now = .error ("Unable to parse KML timestamp: " ++ t) := by
    simp only [PlacemarkData.toRecord, ht, hts]
  refine ⟨hrec, ?_, ?_⟩
  · intro pms
    have h := parsePlacemarksGo_skip now pms 0 []
    simpa [parse_kml_placemarks] using h
  · intro pms1 pms2 hpre
    have h := parsePlacemarksGo_abort now pms1 0 [] pd
      ("Unable to parse KML timestamp: " ++ t) pms2 hpre hrec
    simpa [parse_kml_placemarks] using h

/-- Witness for C7 at the time string not-a-date. -/
theorem c7_kml_unparseable_time_witness :
    pdBadTime.toRecord epochDT = .error ("Unable to parse KML timestamp: " ++ "not-a-date") :=
  (c7_kml_unparseable_time epochDT pdBadTime "not-a-date" rfl (by decide)).1

theorem parseF64_139_123 : parseF64 "139.123" = some (139123 / 1000 : ℚ) := by
  have h : parseF64Repr "139.123" = some ⟨1, 139, 3, 123, 1, 0⟩ := by decide
  rw [parseF64, h]
  simp [DecRep.toRat]
  norm_num

/-- C8 counterexample: the claim asserts that a coordinates string whose first
token is a valid number still yields that longitude even when the second token
is missing, but on the single-token coordinates string 139.123 the code leaves
both longitude and latitude absent although the first token parses as a valid
number. -/
theorem c8_single_token_counterexample :
    parseF64 "139.123" = some (139123 / 1000 : ℚ) ∧
    (pdC8.toRecord epochDT).map (fun r => (r.longitude, r.latitude)) =
      .ok ((none : Option ℚ), (none : Option ℚ)) := by
  exact ⟨parseF64_139_123, by decide⟩

/-- C8 amended: when the trimmed coordinates string splits into at least two
comma-separated tokens, the first two are parsed as longitude and latitude,
each independently defaulting to absent on parse failure, and further tokens
are ignored; with fewer than two tokens both longitude and latitude are left
absent. -/
theorem c8_coordinates_two_token_amended (now : NaiveDateTime) (pd : PlacemarkData)
    (coords : String) (hc : pd.coordinates = some coords) :
    (∀ p0 p1 rest2, strSplitChar ',' (strTrim coords) = p0 :: p1 :: rest2 →
      (pd.toRecord now).map (fun r => (r.longitude, r.latitude)) =
        (pd.toRecord now).map (fun _ => (parseF64 p0, parseF64 p1))) ∧
    ((strSplitChar ',' (strTrim coords)).length < 2 →
      (pd.toRecord now).map (fun r => (r.longitude, r.latitude)) =
        (pd.toRecord now).map (fun _ => ((none : Option ℚ), (none : Option ℚ)))) := by
  constructor
  · intro p0 p1 rest2 hsplit
    cases hpd : pd.time with
    | none => simp [PlacemarkData.toRecord, hc, hsplit, hpd, Except.map]
    | some t =>
      cases hts : parse_kml_timestamp t with
      | ok ts => simp [PlacemarkData.toRecord, hc, hsplit, hpd, hts, Except.map]
      | error e => simp [PlacemarkData.toRecord, hc, hsplit, hpd, hts, Except.map]
  · intro hlen
    rcases hs : strSplitChar ',' (strTrim coords) with _ | ⟨p0, rest1⟩
    · cases hpd : pd.time with
      | none => simp [PlacemarkData.toRecord, hc, hs, hpd, Except.map]
      | some t =>
        cases hts : parse_kml_timestamp t with
        | ok ts => simp [PlacemarkData.toRecord, hc, hs, hpd, hts, Except.map]
        | error e => simp [PlacemarkData.toRecord, hc, hs, hpd, hts, Except.map]
    · rcases rest1 with _ | ⟨p1, rest2⟩
      · cases hpd : pd.time with
        | none => simp [PlacemarkData.toRecord, hc, hs, hpd, Except.map]
        | some t =>
          cases hts : parse_kml_timestamp t with
          | ok ts => simp [PlacemarkData.toRecord, hc, hs, hpd, hts, Except.map]
          | error e => simp [PlacemarkData.toRecord, hc, hs, hpd, hts, Except.map]
      · rw [hs] at hlen
        simp at hlen
        omega

/-- Witness for the amended C8 at a three-token coordinates string. -/
theorem c8_coordinates_two_token_amended_witness :
    (pdC8w.toRecord epochDT).map (fun r => (r.longitude, r.latitude)) =
      (pdC8w.toRecord epochDT).map (fun _ => (parseF64 "139.123", parseF64 "35.456")) :=
  (c8_coordinates_two_token_amended epochDT pdC8w "139.123,35.456,10" rfl).1
    "139.123" "35.456" ["10"] (by decide)

theorem addOptTag_tags (q : WriteQuery) (n : String) (o : Option String) :
    (addOptTag q n o).tags = q.tags ++ optPair n o := by
  cases o <;> simp [addOptTag, optPair]

theorem addOptNumField_tags (q : WriteQuery) (n : String) (o : Option ℚ) :
    (addOptNumField q n o).tags = q.tags := by
  cases o <;> simp [addOptNumField]

theorem addOptStrField_tags (q : WriteQuery) (n : String) (o : Option String) :
    (addOptStrField q n o).tags = q.tags := by
  cases o <;> simp [addOptStrField]

theorem addOptTag_fields (q : WriteQuery) (n : String) (o : Option String) :
    (addOptTag q n o).fields = q.fields := by
  cases o <;> simp [addOptTag]

theorem addOptNumField_fields (q : WriteQuery) (n : String) (o : Option ℚ) :
    (addOptNumField q n o).fields = q.fields ++ optNumPair n o := by
  cases o <;> simp [addOptNumField, optNumPair]

theorem addOptStrField_fields (q : WriteQuery) (n : String) (o : Option String) :
    (addOptStrField q n o).fields = q.fields ++ optStrPair n o := by
  cases o <;> simp [addOptStrField, optStrPair]

theorem to_write_query_v1_tags (r : GNetTrackRecord) :
    (to_write_query_v1 r).tags =
      ("measurement_type", "gnettrack") ::
        (optPair "operator_name" r.operator_name ++ optPair "operator_code" r.operator_code ++
          optPair "cell_id" r.cell_id ++ optPair "network_tech" r.network_tech ++
          optPair "network_mode" r.network_mode ++ optPair "lac" r.lac) := by
  simp [to_write_query_v1, addOptTag_tags, addOptNumField_tags, addOptStrField_tags,
    List.append_assoc]

theorem to_write_query_v1_fields (r : GNetTrackRecord) :
    (to_write_query_v1 r).fields =
      optNumPair "longitude" r.longitude ++ optNumPair "latitude" r.latitude ++
        optNumPair "speed" r.speed ++ optNumPair "level" r.level ++
        optNumPair "qual" r.qual ++ optNumPair "snr" r.snr ++ optNumPair "cqi" r.cqi ++
        optNumPair "dl_bitrate" r.dl_bitrate ++ optNumPair "ul_bitrate" r.ul_bitrate ++
        optStrPair "cgi" r.cgi ++ optStrPair "cellname" r.cellname ++
        optStrPair "node" r.node ++ optStrPair "arfcn" r.arfcn := by
  simp [to_write_query_v1, addOptTag_fields, addOptNumField_fields, addOptStrField_fields,
    List.append_assoc]

/-- C10: every matched text-attribute column stores its cell value as a present
string even when the cell is empty, producing a present empty string rather than
absent, unlike numeric columns where an empty cell maps to absent; a present
empty text attribute is then carried into the built point as a present
empty-valued tag or text field. -/
theorem c10_empty_text_cells_present (now : NaiveDateTime) (v : String)
    (r : GNetTrackRecord) (h : String) :
    (strToLower h = "operator" ∨ strToLower h = "operator_name" →
      applyCell now h v r = .ok { r with operator_name := some v }) ∧
    (strToLower h = "mcc-mnc" ∨ strToLower h = "operator_code" →
      applyCell now h v r = .ok { r with operator_code := some v }) ∧
    (strToLower h = "cgi" → applyCell now h v r = .ok { r with cgi := some v }) ∧
    (strToLower h = "cellname" → applyCell now h v r = .ok { r with cellname := some v }) ∧
    (strToLower h = "node" ∨ strToLower h = "rnc" ∨ strToLower h = "enodeb" →
      applyCell now h v r = .ok { r with node := some v }) ∧
    (strToLower h = "cellid" ∨ strToLower h = "cell_id" →
      applyCell now h v r = .ok { r with cell_id := some v }) ∧
    (strToLower h = "lac" → applyCell now h v r = .ok { r with lac := some v }) ∧
    (strToLower h = "networktech" ∨ strToLower h = "network_tech" ∨ strToLower h = "tech" →
      applyCell now h v r = .ok { r with network_tech := some v }) ∧
    (strToLower h = "networkmode" ∨ strToLower h = "network_mode" ∨ strToLower h = "mode" →
      applyCell now h v r = .ok { r with network_mode := some v }) ∧
    (strToLower h = "arfcn" → applyCell now h v r = .ok { r with arfcn := some v }) ∧
    (strToLower h = "longitude" ∨ strToLower h = "lon" → v = "" →
      applyCell now h v r = .ok { r with longitude := none }) ∧
    (r.operator_name = some "" → ("operator_name", "") ∈ (to_write_query_v1 r).tags) ∧
    (r.operator_code = some "" → ("operator_code", "") ∈ (to_write_query_v1 r).tags) ∧
    (r.cell_id = some "" → ("cell_id", "") ∈ (to_write_query_v1 r).tags) ∧
    (r.network_tech = some "" → ("network_tech", "") ∈ (to_write_query_v1 r).tags) ∧
    (r.network_mode = some "" → ("network_mode", "") ∈ (to_write_query_v1 r).tags) ∧
    (r.lac = some "" → ("lac", "") ∈ (to_write_query_v1 r).tags) ∧
    (r.cgi = some "" → ("cgi", .str "") ∈ (to_write_query_v1 r).fields) ∧
    (r.cellname = some "" → ("cellname", .str "") ∈ (to_write_query_v1 r).fields) ∧
    (r.node = some "" → ("node", .str "") ∈ (to_write_query_v1 r).fields) ∧
    (r.arfcn = some "" → ("arfcn", .str "") ∈ (to_write_query_v1 r).fields) := by
  refine ⟨?_, ?_, ?_, ?_, ?_, ?_, ?_, ?_, ?_, ?_, ?_, ?_, ?_, ?_, ?_, ?_, ?_, ?_, ?_, ?_, ?_⟩
  · rintro (h1 | h1) <;> simp [applyCell, h1]
  · rintro (h1 | h1) <;> simp [applyCell, h1]
  · intro h1
    simp [applyCell, h1]
  · intro h1
    simp [applyCell, h1]
  · rintro (h1 | h1 | h1) <;> simp [applyCell, h1]
  · rintro (h1 | h1) <;> simp [applyCell, h1]
  · intro h1
    simp [applyCell, h1]
  · rintro (h1 | h1 | h1) <;> simp [applyCell, h1]
  · rintro (h1 | h1 | h1) <;> simp [applyCell, h1]
  · intro h1
    simp [applyCell, h1]
  · rintro (h1 | h1) hv <;> subst hv <;> simp [applyCell, h1, parse_float_optional]
  · intro h1
    simp [to_write_query_v1_tags, h1, optPair]
  · intro h1
    simp [to_write_query_v1_tags, h1, optPair]
  · intro h1
    simp [to_write_query_v1_tags, h1, optPair]
  · intro h1
    simp [to_write_query_v1_tags, h1, optPair]
  · intro h1
    simp [to_write_query_v1_tags, h1, optPair]
  · intro h1
    simp [to_write_query_v1_tags, h1, optPair]
  · intro h1
    simp [to_write_query_v1_fields, h1, optStrPair]
  · intro h1
    simp [to_write_query_v1_fields, h1, optStrPair]
  · intro h1
    simp [to_write_query_v1_fields, h1, optStrPair]
  · intro h1
    simp [to_write_query_v1_fields, h1, optStrPair]

/-- Witness for C10: an empty operator cell is stored as a present empty string. -/
theorem c10_empty_text_cells_present_witness :
    applyCell epochDT "Operator" "" (initRecord epochDT) =
      .ok { initRecord epochDT with operator_name := some "" } :=
  (c10_empty_text_cells_present epochDT "" (initRecord epochDT) "Operator").1
    (Or.inl (by decide))
